import Mathlib

/-!
Shallow embedding of `src/prompting.py` (repository pmbaumgartner/nav-labeled-data).

The script declares a string `Enum` of seven category values, a pydantic model
`MomentClassification` with two fields, a triple-quoted format template `prompt`,
and renders `text = prompt.format(categories=..., json_schema=..., text=...).strip()`.

Strings are modelled as `List Char` where character-level reasoning is needed
(`String.data` converts literals).  Python's `str.format` is modelled by a
character-by-character scanner (`pyFormatAux`) so that the totality claim about
brace characters in substituted values is a genuine theorem, and `str.strip`
is modelled by `pyStrip`.  Braces, apostrophes, double quotes and backticks
inside string literals are written with `\xNN` escapes throughout.
-/

namespace NavLabeledData

/-- Values of the `Classification` enum (src/prompting.py lines 5-12), in
declaration order. -/
def classificationValues : List String :=
  ["achievement", "affection", "enjoy_the_moment", "bonding", "leisure", "nature", "exercise"]

/-- Type of a pydantic field as used by `MomentClassification`: either a plain
`str` field or a reference to a named enum. -/
inductive FieldType where
  | strType : FieldType
  | enumRef : String → FieldType
deriving DecidableEq

/-- One declared field of the `MomentClassification` pydantic model:
its name, its type, and the optional `Field(description=...)` text. -/
structure FieldDecl where
  name : String
  type : FieldType
  description : Option String
deriving DecidableEq

/-- The two fields of `MomentClassification` (src/prompting.py lines 15-19), in
declaration order. -/
def momentClassificationFields : List FieldDecl :=
  [{ name := "explanation", type := .strType,
     description := some ("An explanation of the classification decision.") },
   { name := "classification", type := .enumRef "Classification",
     description := none }]

/-- JSON string rendering.  None of the strings serialized by this script
contain characters that `json.dumps` would escape, so plain quoting is the
faithful model. -/
def jsonQuote (s : String) : String := "\x22" ++ s ++ "\x22"

/-- Python `str.title()` applied to a single-word field alias, as pydantic v1
does to produce a field's schema title (`'explanation'.title() = 'Explanation'`). -/
def pyTitle (s : String) : String :=
  match s.data with
  | [] => ""
  | c :: r => String.mk (c.toUpper :: r)

/-- Schema fragment pydantic v1 produces for one model field inside
`properties`: a plain `$ref` for a bare enum-typed field, and a
title/description/type object for a `str` field declared with `Field(...)`. -/
def fieldPropJson (f : FieldDecl) : String :=
  match f.type with
  | .enumRef n => "\x7b\x22$ref\x22: \x22#/definitions/" ++ n ++ "\x22\x7d"
  | .strType =>
      "\x7b\x22title\x22: " ++ jsonQuote (pyTitle f.name) ++ ", "
        ++ (match f.description with
            | some d => "\x22description\x22: " ++ jsonQuote d ++ ", "
            | none => "")
        ++ "\x22type\x22: \x22string\x22\x7d"

/-- The `properties` object of the model schema, one entry per declared field,
in declaration order. -/
def propertiesJson (fs : List FieldDecl) : String :=
  "\x7b" ++ String.intercalate (", ")
      (fs.map (fun f => jsonQuote f.name ++ ": " ++ fieldPropJson f)) ++ "\x7d"

/-- The `required` array of the model schema: every declared field (both fields
of `MomentClassification` are required). -/
def requiredJson (fs : List FieldDecl) : String :=
  "[" ++ String.intercalate (", ") (fs.map (fun f => jsonQuote f.name)) ++ "]"

/-- The schema pydantic v1 generates for a `str`-valued `Enum` class: title,
the default docstring `An enumeration.`, the value list in declaration order,
and `type: string`. -/
def enumDefJson (name : String) (values : List String) : String :=
  "\x7b\x22title\x22: " ++ jsonQuote name
    ++ ", \x22description\x22: \x22An enumeration.\x22, \x22enum\x22: ["
    ++ String.intercalate (", ") (values.map jsonQuote)
    ++ "], \x22type\x22: \x22string\x22\x7d"

/-- Model of `MomentClassification.schema_json()` (src/prompting.py line 42):
the pydantic v1 JSON-schema serialization with `json.dumps` default separators,
derived from the same `momentClassificationFields` and `classificationValues`
definitions that the rest of the embedding uses. -/
def schema_json : String :=
  "\x7b\x22title\x22: \x22MomentClassification\x22, \x22type\x22: \x22object\x22, \x22properties\x22: "
    ++ propertiesJson momentClassificationFields
    ++ ", \x22required\x22: " ++ requiredJson momentClassificationFields
    ++ ", \x22definitions\x22: \x7b\x22Classification\x22: "
    ++ enumDefJson "Classification" classificationValues
    ++ "\x7d\x7d"

/-- Python `repr` of one of the category strings (single quotes: none of the
values contain a quote character). -/
def pyRepr (s : String) : String := "\x27" ++ s ++ "\x27"

/-- Python `str` of the list `[e.value for e in Classification]`
(src/prompting.py line 41): bracketed, comma-separated, elements single-quoted. -/
def pyListRepr (xs : List String) : String :=
  "[" ++ String.intercalate (", ") (xs.map pyRepr) ++ "]"

/-- The text substituted for the `categories` placeholder. -/
def catText : String := pyListRepr classificationValues

/-- Template text before the `categories` placeholder (src/prompting.py
lines 22-23). -/
def promptPart1 : String :=
  "You are a system designed to classify written descriptions of happy moments.\nI will give you the text of a happy moment, and you should classify it into one of the following categories: "

/-- Template text between the `categories` and `json_schema` placeholders
(src/prompting.py lines 23-29). -/
def promptPart2 : String :=
  "\nYou will provide an explanation with your decision.\n\nReturn your response as JSON according to the following JSON schema:\n\n\x60\x60\x60\n"

/-- Template text between the `json_schema` and `text` placeholders
(src/prompting.py lines 29-35). -/
def promptPart3 : String :=
  "\n\x60\x60\x60\n\nDo not return anything else except your response as JSON. Do not return a JSON schema.\nReturn an object that follows the schema.\n\nInput: "

/-- Template text after the `text` placeholder (src/prompting.py lines 35-37). -/
def promptPart4 : String :=
  "\nOutput:\n"

/-- The triple-quoted format template `prompt` (src/prompting.py lines 22-37),
as a single literal, braces escaped. -/
def prompt : String :=
  "You are a system designed to classify written descriptions of happy moments.\nI will give you the text of a happy moment, and you should classify it into one of the following categories: \x7bcategories\x7d\nYou will provide an explanation with your decision.\n\nReturn your response as JSON according to the following JSON schema:\n\n\x60\x60\x60\n\x7bjson_schema\x7d\n\x60\x60\x60\n\nDo not return anything else except your response as JSON. Do not return a JSON schema.\nReturn an object that follows the schema.\n\nInput: \x7btext\x7d\nOutput:\n"

/-- Scanner state of the `str.format` model: ordinary text, just after `\x7b`,
inside a replacement-field name (accumulated reversed), or just after `\x7d`. -/
inductive FmtMode where
  | text : FmtMode
  | brace : FmtMode
  | closeB : FmtMode
  | key : List Char → FmtMode

/-- Character-by-character model of CPython's `str.format` template scanner.
`\x7b\x7b` and `\x7d\x7d` emit literal braces, `\x7b name \x7d` looks `name` up
in the keyword environment and splices the value in verbatim (substituted
values are never rescanned, exactly as in CPython), and a stray brace or a
failed lookup is an error.  (CPython distinguishes a few more error kinds,
e.g. for `\x7b\x7d` or a brace inside a field name; all of those are also
errors here, which is all the template of this script can rely on.) -/
def pyFormatAux (e : String → Option String) : FmtMode → List Char → Except String (List Char)
  | .text, [] => .ok []
  | .brace, [] => .error ("Expected close brace before end of string")
  | .closeB, [] => .error ("Single close brace encountered in format string")
  | .key _, [] => .error ("Expected close brace before end of string")
  | .text, c :: rest =>
      if c = '\x7b' then pyFormatAux e .brace rest
      else if c = '\x7d' then pyFormatAux e .closeB rest
      else (pyFormatAux e .text rest).map (fun r => c :: r)
  | .brace, c :: rest =>
      if c = '\x7b' then (pyFormatAux e .text rest).map (fun r => '\x7b' :: r)
      else if c = '\x7d' then .error ("Empty replacement field in format string")
      else pyFormatAux e (.key [c]) rest
  | .closeB, c :: rest =>
      if c = '\x7d' then (pyFormatAux e .text rest).map (fun r => '\x7d' :: r)
      else .error ("Single close brace encountered in format string")
  | .key acc, c :: rest =>
      if c = '\x7d' then
        match e (String.mk acc.reverse) with
        | some v => (pyFormatAux e .text rest).map (fun r => v.data ++ r)
        | none => .error ("KeyError in format string")
      else pyFormatAux e (.key (c :: acc)) rest

/-- The keyword environment of the `prompt.format(...)` call
(src/prompting.py lines 40-44): `categories`, `json_schema` and `text`. -/
def env (sample_text : String) (key : String) : Option String :=
  if key = "categories" then some catText
  else if key = "json_schema" then some schema_json
  else if key = "text" then some sample_text
  else none

/-- The result of `prompt.format(...)` before `.strip()`. -/
def formatted (sample_text : String) : Except String (List Char) :=
  pyFormatAux (env sample_text) .text prompt.data

/-- Python `str.strip()` whitespace test.  The characters of this script are
ASCII, so the ASCII whitespace set is the faithful model. -/
def isPySpace (c : Char) : Bool :=
  c = ' ' || c = '\t' || c = '\n' || c = '\r' || c = '\x0b' || c = '\x0c'

/-- Python `str.strip()`: drop whitespace from the front, then from the back. -/
def pyStrip (l : List Char) : List Char :=
  ((l.dropWhile isPySpace).reverse.dropWhile isPySpace).reverse

/-- The full render operation of src/prompting.py lines 40-44:
`prompt.format(categories=..., json_schema=..., text=sample_text).strip()`.
The error branch is never reached (`formatted_ok` below). -/
def render (sample_text : String) : List Char :=
  match formatted sample_text with
  | .ok r => pyStrip r
  | .error _ => []

/-- The hardcoded demonstration input string (src/prompting.py line 43). -/
def sampleText : String :=
  "I\x27ve got my backyard mostly cleaned up and can get to work on some new projects out there."

/-- The module-level `text` value: the demonstration render that the script
prints. -/
def text : List Char := render sampleText

/-- Number of positions of `l` at which `pat` occurs as a substring
(occurrences at every start position are counted). -/
def countOcc (pat : List Char) : List Char → Nat
  | [] => if pat.isPrefixOf ([] : List Char) then 1 else 0
  | c :: rest => (if pat.isPrefixOf (c :: rest) then 1 else 0) + countOcc pat rest

/-- Everything of the rendered output that precedes the substituted sample
text. -/
def strippedPre : List Char :=
  promptPart1.data ++ catText.data ++ promptPart2.data ++ schema_json.data ++ promptPart3.data

/-- The result of `prompt.format(...)` spelled out: the four literal template
chunks with the three substituted values between them. -/
def unstripped (s : String) : List Char :=
  promptPart1.data ++ catText.data ++ promptPart2.data ++ schema_json.data
    ++ promptPart3.data ++ s.data ++ promptPart4.data

/-- Suffix of `l` that follows the first occurrence of `m`, when `m` occurs. -/
def findAfter (m : List Char) : List Char → Option (List Char)
  | [] => if m.isPrefixOf ([] : List Char) then some (([] : List Char).drop m.length) else none
  | c :: rest =>
      if m.isPrefixOf (c :: rest) then some ((c :: rest).drop m.length)
      else findAfter m rest

/-- Prefix of `l` up to (excluding) the first occurrence of `c`. -/
def takeUntil (c : Char) (l : List Char) : List Char :=
  l.takeWhile (fun x => x ≠ c)

/-- Split on the two-character separator comma-space, as placed between JSON
array elements by `json.dumps` default separators. -/
def splitCS (acc : List Char) : List Char → List (List Char)
  | [] => [acc.reverse]
  | ',' :: ' ' :: rest => acc.reverse :: splitCS [] rest
  | c :: rest => splitCS (c :: acc) rest

/-- Strip one layer of JSON double quotes. -/
def unquote : List Char → Option String
  | '\x22' :: rest =>
      if rest.getLast? = some '\x22' then some (String.mk rest.dropLast) else none
  | _ => none

/-- The marker that opens the allowed-values list of the `classification`
field inside the rendered JSON schema. -/
def enumMarker : List Char := ("\x22enum\x22: [").data

/-- Read the allowed-values list of the `classification` field back out of a
rendered prompt: the double-quoted, comma-separated names between the first
occurrence of the enum marker and the closing bracket. -/
def schemaEnumOf (rendered : List Char) : Option (List String) :=
  (findAfter enumMarker rendered).bind fun t =>
    (splitCS [] (takeUntil ']' t)).mapM unquote

set_option maxRecDepth 8000

lemma exceptMap_map {α β γ ε : Type} (f : α → β) (g : β → γ) (x : Except ε α) :
    (x.map f).map g = x.map (fun a => g (f a)) := by
  cases x <;> rfl

lemma pyFormatAux_copy (e : String → Option String) (cs rest : List Char)
    (h : ∀ c ∈ cs, c ≠ '\x7b' ∧ c ≠ '\x7d') :
    pyFormatAux e .text (cs ++ rest)
      = (pyFormatAux e .text rest).map (fun r => cs ++ r) := by
  induction cs with
  | nil =>
      cases hx : pyFormatAux e .text rest <;> simp [Except.map, hx]
  | cons c cs ih =>
      have hc := h c (List.mem_cons_self c cs)
      have hrest : ∀ x ∈ cs, x ≠ '\x7b' ∧ x ≠ '\x7d' :=
        fun x hx => h x (List.mem_cons_of_mem c hx)
      simp only [List.cons_append, pyFormatAux, if_neg hc.1, if_neg hc.2,
        List.append_eq]
      rw [ih hrest, exceptMap_map]

lemma pyFormatAux_key (e : String → Option String) (v : String) :
    ∀ (key acc rest : List Char), (∀ c ∈ key, c ≠ '\x7d') →
      e (String.mk (acc.reverse ++ key)) = some v →
      pyFormatAux e (.key acc) (key ++ '\x7d' :: rest)
        = (pyFormatAux e .text rest).map (fun r => v.data ++ r) := by
  intro key
  induction key with
  | nil =>
      intro acc rest hk hv
      rw [List.append_nil] at hv
      simp only [List.nil_append, pyFormatAux, if_pos rfl, hv]
      simp
  | cons k key ih =>
      intro acc rest hk hv
      have hk0 : k ≠ '\x7d' := hk k (List.mem_cons_self k key)
      simp only [List.cons_append, pyFormatAux, if_neg hk0]
      refine ih (k :: acc) rest (fun c hc => hk c (List.mem_cons_of_mem k hc)) ?_
      rw [List.reverse_cons, List.append_assoc]
      simpa using hv

lemma pyFormatAux_placeholder (e : String → Option String) (k : Char)
    (key rest : List Char) (v : String)
    (hk0 : k ≠ '\x7b') (hk1 : k ≠ '\x7d')
    (hk : ∀ c ∈ key, c ≠ '\x7d')
    (hv : e (String.mk (k :: key)) = some v) :
    pyFormatAux e .text ('\x7b' :: k :: (key ++ '\x7d' :: rest))
      = (pyFormatAux e .text rest).map (fun r => v.data ++ r) := by
  simp only [pyFormatAux, if_pos rfl, if_neg hk0, if_neg hk1]
  refine pyFormatAux_key e v key [k] rest hk ?_
  simpa using hv

lemma prompt_data_split :
    prompt.data
      = promptPart1.data ++ '\x7b' :: 'c' :: (("ategories").data ++ '\x7d' ::
          (promptPart2.data ++ '\x7b' :: 'j' :: (("son_schema").data ++ '\x7d' ::
            (promptPart3.data ++ '\x7b' :: 't' :: (("ext").data ++ '\x7d' ::
              promptPart4.data))))) := by
  rfl

lemma env_categories (s : String) :
    env s (String.mk ('c' :: ("ategories").data)) = some catText := rfl

lemma env_json_schema (s : String) :
    env s (String.mk ('j' :: ("son_schema").data)) = some schema_json := rfl

lemma env_text (s : String) :
    env s (String.mk ('t' :: ("ext").data)) = some s := rfl

lemma formatted_eq (s : String) : formatted s = .ok (unstripped s) := by
  show pyFormatAux (env s) .text prompt.data = _
  rw [prompt_data_split]
  rw [pyFormatAux_copy (env s) promptPart1.data _ (by decide)]
  rw [pyFormatAux_placeholder (env s) 'c' ("ategories").data _ catText
        (by decide) (by decide) (by decide) (env_categories s)]
  rw [pyFormatAux_copy (env s) promptPart2.data _ (by decide)]
  rw [pyFormatAux_placeholder (env s) 'j' ("son_schema").data _ schema_json
        (by decide) (by decide) (by decide) (env_json_schema s)]
  rw [pyFormatAux_copy (env s) promptPart3.data _ (by decide)]
  rw [pyFormatAux_placeholder (env s) 't' ("ext").data _ s
        (by decide) (by decide) (by decide) (env_text s)]
  have h4 : pyFormatAux (env s) .text promptPart4.data = .ok promptPart4.data := by
    have := pyFormatAux_copy (env s) promptPart4.data [] (by decide)
    simpa [Except.map] using this
  rw [h4]
  simp [Except.map, unstripped, List.append_assoc]

lemma dropWhile_append_of_ne_nil (p : Char → Bool) (a b : List Char)
    (h : a.dropWhile p ≠ []) :
    (a ++ b).dropWhile p = a.dropWhile p ++ b := by
  rw [List.dropWhile_append, if_neg]
  simpa [List.isEmpty_iff] using h

lemma pyStrip_unstripped (s : String) :
    pyStrip (unstripped s) = strippedPre ++ (s.data ++ ("\nOutput:").data) := by
  have hassoc : unstripped s
      = promptPart1.data ++ ((catText.data ++ (promptPart2.data ++ (schema_json.data
          ++ (promptPart3.data ++ s.data)))) ++ promptPart4.data) := by
    simp [unstripped, List.append_assoc]
  rw [pyStrip, hassoc]
  rw [dropWhile_append_of_ne_nil isPySpace promptPart1.data _ (by decide)]
  rw [show promptPart1.data.dropWhile isPySpace = promptPart1.data from by decide]
  simp only [List.reverse_append, List.append_assoc]
  rw [dropWhile_append_of_ne_nil isPySpace promptPart4.data.reverse _ (by decide)]
  rw [show promptPart4.data.reverse.dropWhile isPySpace = (":tuptuO\n").data from by decide]
  simp only [List.reverse_append, List.reverse_reverse]
  rw [show ((":tuptuO\n").data).reverse = ("\nOutput:").data from by decide]
  simp [strippedPre, List.append_assoc]

lemma render_eq (s : String) :
    render s = strippedPre ++ (s.data ++ ("\nOutput:").data) := by
  simp only [render, formatted_eq]
  exact pyStrip_unstripped s

lemma findAfter_length_le {m l t : List Char} (h : findAfter m l = some t) :
    m.length ≤ l.length := by
  induction l with
  | nil =>
      cases m with
      | nil => simp
      | cons x xs => simp [findAfter, List.isPrefixOf] at h
  | cons c rest ih =>
      rw [findAfter] at h
      cases hp : m.isPrefixOf (c :: rest) with
      | true => exact (List.isPrefixOf_iff_prefix.mp hp).length_le
      | false =>
          rw [if_neg (by simp [hp])] at h
          exact Nat.le_trans (ih h) (Nat.le_succ _)

lemma isPrefixOf_append_left {m l : List Char} (b : List Char)
    (h : m.length ≤ l.length) :
    m.isPrefixOf (l ++ b) = m.isPrefixOf l := by
  induction m generalizing l with
  | nil => simp [List.isPrefixOf]
  | cons x m ih =>
      cases l with
      | nil => exact absurd h (by simp)
      | cons y l =>
          simp only [List.cons_append, List.isPrefixOf, List.append_eq]
          rw [ih (Nat.le_of_succ_le_succ h)]

lemma findAfter_nil_left (b : List Char) :
    findAfter [] b = some b := by
  cases b with
  | nil => simp [findAfter, List.isPrefixOf]
  | cons c r =>
      rw [findAfter, if_pos (by simp [List.isPrefixOf])]
      simp

lemma findAfter_append {m a t : List Char} (b : List Char)
    (h : findAfter m a = some t) :
    findAfter m (a ++ b) = some (t ++ b) := by
  induction a with
  | nil =>
      cases m with
      | nil =>
          have ht : t = [] := by
            simpa [findAfter, List.isPrefixOf] using h.symm
          subst ht
          simpa using findAfter_nil_left b
      | cons x xs => simp [findAfter, List.isPrefixOf] at h
  | cons c a ih =>
      rw [findAfter] at h
      cases hp : m.isPrefixOf (c :: a) with
      | true =>
          rw [if_pos hp] at h
          have hlen : m.length ≤ (c :: a).length :=
            (List.isPrefixOf_iff_prefix.mp hp).length_le
          have hp' : m.isPrefixOf ((c :: a) ++ b) = true := by
            rw [isPrefixOf_append_left b hlen]; exact hp
          rw [show (c :: a) ++ b = c :: (a ++ b) from rfl] at hp'
          rw [List.cons_append, findAfter, if_pos hp']
          rw [show (c :: (a ++ b)) = (c :: a) ++ b from rfl,
            List.drop_append_of_le_length hlen]
          simpa using congrArg (fun o => Option.map (fun u => u ++ b) o) h
      | false =>
          rw [if_neg (by simp [hp])] at h
          have hlen : m.length ≤ (c :: a).length :=
            Nat.le_trans (findAfter_length_le h) (Nat.le_succ _)
          have hp' : m.isPrefixOf ((c :: a) ++ b) = false := by
            rw [isPrefixOf_append_left b hlen]; exact hp
          rw [show (c :: a) ++ b = c :: (a ++ b) from rfl] at hp'
          rw [List.cons_append, findAfter, if_neg (by simp [hp'])]
          exact ih h

/-- Suffix of the pre-sample-text part of the rendered prompt that follows the
first occurrence of the enum marker. -/
def enumTail : List Char := (findAfter enumMarker strippedPre).getD []

lemma findAfter_strippedPre : findAfter enumMarker strippedPre = some enumTail := by
  rfl

/-- C1: the allowed-values enumeration for the `classification` field inside
the rendered schema text equals the Category set exactly — the same seven
values, in declaration order — in every render: reading the `enum` list back
out of the rendered prompt yields exactly `classificationValues`. -/
theorem schema_enum_matches_categories (s : String) :
    schemaEnumOf (render s) = some classificationValues := by
  rw [render_eq, schemaEnumOf, findAfter_append _ findAfter_strippedPre]
  simp only [Option.some_bind]
  rw [takeUntil, List.takeWhile_append, if_neg (by decide)]
  decide

/-- C2: the render operation is deterministic — two evaluations on the same
sample text produce identical output strings. -/
theorem render_deterministic (s₁ s₂ : String) (h : s₁ = s₂) :
    render s₁ = render s₂ := by
  rw [h]

theorem render_deterministic_witness :
    sampleText = sampleText ∧ render sampleText = render sampleText :=
  ⟨rfl, render_deterministic sampleText sampleText rfl⟩

/-- C3 counterexample: the category value `achievement` occurs twice as a
substring of the demonstration render (once in the category list, once in the
schema's enum), not exactly once as claimed. -/
theorem category_value_occurs_twice_not_once :
    countOcc (("achievement").data) (render sampleText) = 2 ∧
      countOcc (("achievement").data) (render sampleText) ≠ 1 := by
  refine ⟨by decide, by decide⟩

/-- C3 amended: each of the seven Category values occurs exactly twice as a
substring of the rendered output — once inside the substituted category list
and once inside the schema's enum — and each of those two regions lists all
seven values contiguously in declaration order. -/
theorem category_values_twice_in_order :
    (classificationValues.all fun v => countOcc v.data (render sampleText) == 2) = true ∧
      countOcc (pyListRepr classificationValues).data (render sampleText) = 1 ∧
      countOcc (("\x22achievement\x22, \x22affection\x22, \x22enjoy_the_moment\x22, \x22bonding\x22, \x22leisure\x22, \x22nature\x22, \x22exercise\x22").data)
        (render sampleText) = 1 := by
  refine ⟨by decide, by decide, by decide⟩

/-- C4: for every render, the final rendered string has no leading and no
trailing whitespace. -/
theorem render_no_edge_whitespace (s : String) :
    ((render s).head?.any isPySpace = false)
      ∧ ((render s).getLast?.any isPySpace = false) := by
  rw [render_eq]
  constructor
  · rw [show strippedPre = 'Y' :: strippedPre.tail from rfl, List.cons_append]
    rfl
  · simp [List.getLast?_append,
      show (("\nOutput:").data).getLast? = some ':' from rfl]
    rfl

/-- C5: the demonstration render ends with the cue `Output:` followed by
nothing else. -/
theorem demo_render_ends_with_output_cue :
    (("Output:").data).isSuffixOf (render sampleText) = true := by
  decide

/-- C6: for every render the sample text appears verbatim as a contiguous
substring of the rendered prompt; in the demonstration invocation that sample
text is the hardcoded backyard sentence. -/
theorem sample_text_embedded_verbatim :
    (∀ s : String, List.IsInfix s.data (render s)) ∧
      sampleText = "I\x27ve got my backyard mostly cleaned up and can get to work on some new projects out there." :=
  ⟨fun s => ⟨strippedPre, ("\nOutput:").data, (render_eq s).symm⟩, rfl⟩

/-- C7: the rendered output is a single string containing, in order: the
role-setting instruction, the category list, the formatting instructions, the
serialized schema, the literal input text, and the final `Output:` cue. -/
theorem render_section_order (s : String) :
    render s = promptPart1.data ++ ((pyListRepr classificationValues).data
      ++ (promptPart2.data ++ (schema_json.data ++ (promptPart3.data
      ++ (s.data ++ (("\nOutput:").data)))))) := by
  rw [render_eq]
  simp [strippedPre, catText, List.append_assoc]

/-- C8: the schema embedded in the rendered output names exactly two fields —
`explanation` (a string with a human-readable description attached) and
`classification` (a reference to the Classification enum) — and the rendered
output contains exactly the properties object serialized from those two
declared fields. -/
theorem schema_names_exactly_two_fields :
    momentClassificationFields.map FieldDecl.name = ["explanation", "classification"] ∧
      momentClassificationFields.map FieldDecl.type
        = ([.strType, .enumRef "Classification"] : List FieldType) ∧
      countOcc ((("\x22properties\x22: ").data) ++ (propertiesJson momentClassificationFields).data)
        (render sampleText) = 1 := by
  refine ⟨rfl, rfl, by decide⟩

/-- C9: the render operation is total — template substitution succeeds for
every input string, including strings containing brace characters, because
substituted values are never rescanned; no error path is reachable. -/
theorem format_never_fails (s : String) : ∃ r, formatted s = Except.ok r :=
  ⟨unstripped s, formatted_eq s⟩

/-- C10: the categories placeholder is filled with the Python list
representation (bracketed, comma-separated, single-quoted values) while the
schema serialization uses JSON double quotes, so the double-quoted form of
`achievement` occurs exactly once in the rendered output. -/
theorem quoting_split_between_sections :
    pyListRepr classificationValues
        = "[\x27achievement\x27, \x27affection\x27, \x27enjoy_the_moment\x27, \x27bonding\x27, \x27leisure\x27, \x27nature\x27, \x27exercise\x27]" ∧
      countOcc (pyListRepr classificationValues).data (render sampleText) = 1 ∧
      countOcc (("\x22achievement\x22").data) (render sampleText) = 1 := by
  refine ⟨rfl, by decide, by decide⟩

end NavLabeledData
